import Mathlib

/-!
Shallow embedding of the core of the Algorithmic-Trading-Strategy-Backtester
repository (an event-driven backtesting engine), translated from the Python
sources `core.py`, `loader.py`, `manager.py`, `broker.py`, `portfolio.py`,
and `engine.py`.

Modelling conventions:
  * `pd.Timestamp` is modelled as `ℕ` (timestamps are only compared/ordered).
  * Python `float` prices/quantities are modelled as `ℚ` (exact arithmetic;
    the claims under study are structural, not about rounding).
  * `np.nan` results (e.g. of `compute_atr`) are modelled as `Option ℚ`,
    `none` standing for NaN; `np.isnan` tests become matches on the option.
  * Python `dict` fields (positions, market_events, the order→strategy map)
    are modelled as insertion-ordered association lists, with assignment
    replacing in place on an existing key and appending on a new key,
    matching CPython dict semantics.
  * The module-global `_order_counter` of `core.py` is threaded explicitly
    through every function that constructs an `OrderEvent`; order ids are
    the counter values (the string `ORD-%06d` rendering is injective, so a
    natural number faithfully represents it).
  * Python truthiness on `Optional[float]` (`sig.stop_loss or x`,
    `if sl and ...`) is modelled explicitly: `None` and `0.0` are falsy.
-/

namespace AlgoTrader

/-- `OrderSide` from core.py. -/
inductive OrderSide where
  | buy
  | sell
deriving DecidableEq, Repr

/-- `OrderType` from core.py. -/
inductive OrderType where
  | market
  | limit
deriving DecidableEq, Repr

/-- `OrderStatus` from core.py. -/
inductive OrderStatus where
  | pending
  | filled
  | cancelled
  | rejected
deriving DecidableEq, Repr

/-- `SignalDirection` from core.py. -/
inductive SignalDirection where
  | long
  | short
  | flat
deriving DecidableEq, Repr

/-- `MarketEvent` from core.py: one OHLCV bar of one symbol.
The `open` column is named `open_` (`open` is a Lean keyword). -/
structure MarketEvent where
  timestamp : ℕ
  symbol : String
  open_ : ℚ
  high : ℚ
  low : ℚ
  close : ℚ
  volume : ℚ
deriving DecidableEq, Repr

/-- `SignalEvent` from core.py. -/
structure SignalEvent where
  timestamp : ℕ
  symbol : String
  strategy_id : String
  direction : SignalDirection
  strength : ℚ
  stop_loss : Option ℚ
  take_profit : Option ℚ
deriving DecidableEq, Repr

/-- `OrderEvent` from core.py.  `order_id` is the value of the global
order counter at creation (rendered `ORD-%06d` in the source). -/
structure OrderEvent where
  timestamp : ℕ
  symbol : String
  order_type : OrderType
  side : OrderSide
  quantity : ℚ
  limit_price : Option ℚ
  stop_loss : Option ℚ
  take_profit : Option ℚ
  order_id : ℕ
  status : OrderStatus
deriving DecidableEq, Repr

/-- `FillEvent` from core.py. -/
structure FillEvent where
  timestamp : ℕ
  symbol : String
  side : OrderSide
  quantity : ℚ
  fill_price : ℚ
  commission : ℚ
  slippage : ℚ
  order_id : ℕ
  strategy_id : String
deriving DecidableEq, Repr

/-- Python truthiness of an `Optional[float]`: `None` and `0.0` are falsy. -/
def pyTruthy : Option ℚ → Bool
  | none => false
  | some v => v != 0

/-- Python `a or b` on `Optional[float]` operands: returns `a` unless `a`
is falsy (`None` or `0.0`), else `b`.  Used for `sig.stop_loss or ...` in
manager.py. -/
def pyOr (a b : Option ℚ) : Option ℚ :=
  match a with
  | some v => if v = 0 then b else some v
  | none => b

/-- `hist.iloc[-n:]` for `n ≥ 1`: the last `n` elements. -/
def takeLast {α : Type} (n : ℕ) (l : List α) : List α :=
  l.drop (l.length - n)

/-- `BarFeed` from loader.py: a mapping symbol → chronological bar rows
(the per-symbol OHLCV DataFrame). -/
structure BarFeed where
  data : List (String × List MarketEvent)

/-- `BarFeed.history` from loader.py:
`df[df.index <= up_to]` then `hist.iloc[-n:]` when `n` is given.
`none` models the `KeyError` raised for an unknown symbol.
Note the Python slice `iloc[-0:]` is `iloc[0:]`, the WHOLE frame, so
`n = 0` returns the full filtered history. -/
def BarFeed.history (feed : BarFeed) (symbol : String) (up_to : ℕ)
    (n : Option ℕ) : Option (List MarketEvent) :=
  (feed.data.lookup symbol).map (fun df =>
    let hist := df.filter (fun b => b.timestamp ≤ up_to)
    match n with
    | none => hist
    | some k => if k = 0 then hist else takeLast k hist)

/-- The true-range sequence of manager.py's `compute_atr`: for each adjacent
pair (previous row, current row) of the history,
`max(H-L, |H-Cprev|, |L-Cprev|)` (the `np.maximum.reduce` over the three
shifted arrays). -/
def trueRanges (rows : List MarketEvent) : List ℚ :=
  (rows.zip rows.tail).map (fun pc =>
    max (pc.2.high - pc.2.low)
      (max |pc.2.high - pc.1.close| |pc.2.low - pc.1.close|))

/-- `compute_atr` from manager.py.  Returns `none` for `np.nan` (history
shorter than `period + 1` bars, or `np.mean` of an empty slice).  Otherwise
`np.mean(tr[-period:])`, the mean of the last `period` true ranges. -/
def compute_atr (rows : List MarketEvent) (period : ℕ) : Option ℚ :=
  if rows.length < period + 1 then none
  else
    let tr := trueRanges rows
    let lastp := if period = 0 then tr else takeLast period tr
    if lastp.length = 0 then none
    else some (lastp.sum / (lastp.length : ℚ))

/-- `ATRPositionSizer` configuration from manager.py. -/
structure ATRPositionSizer where
  risk_pct : ℚ
  atr_period : ℕ
  atr_multiplier : ℚ
  max_position_pct : ℚ
deriving Repr

/-- Default `ATRPositionSizer()` of manager.py. -/
def ATRPositionSizer.default : ATRPositionSizer :=
  { risk_pct := 1/100, atr_period := 14, atr_multiplier := 2,
    max_position_pct := 20/100 }

/-- `ATRPositionSizer.size` from manager.py.  `atr = none` models NaN. -/
def ATRPositionSizer.size (s : ATRPositionSizer) (equity price : ℚ)
    (atr : Option ℚ) (signal_strength : ℚ) : ℚ :=
  match atr with
  | none => 0
  | some a =>
    if a ≤ 0 ∨ price ≤ 0 then 0
    else
      let stop_distance := a * s.atr_multiplier
      let dollar_risk := equity * s.risk_pct * signal_strength
      let raw_qty := dollar_risk / stop_distance
      let max_qty := equity * s.max_position_pct / price
      max 0 ((Int.floor (min raw_qty max_qty) : ℤ) : ℚ)

/-- `FixedFractionSizer.size` from manager.py (as a sizer function with the
same calling shape as `ATRPositionSizer.size`; the `atr` argument is
ignored, as in the source). -/
def FixedFractionSizer (fraction : ℚ) (equity price : ℚ) (_atr : Option ℚ)
    (signal_strength : ℚ) : ℚ :=
  if price ≤ 0 then 0
  else max 0 ((Int.floor (equity * fraction * signal_strength / price) : ℤ) : ℚ)

/-- `RiskManager` configuration from manager.py.  `sizer` is the pluggable
position sizer (duck-typed in the source; here a function with the shape of
`ATRPositionSizer.size`). -/
structure RiskManager where
  sizer : ℚ → ℚ → Option ℚ → ℚ → ℚ
  atr_period : ℕ
  stop_atr_mult : ℚ
  tp_atr_mult : ℚ
  max_open_positions : ℕ
  allow_short : Bool

/-- `len([s for s, q in open_positions.items() if q > 0])` in
`RiskManager.process_signals`. -/
def countLongs (open_positions : List (String × ℚ)) : ℕ :=
  (open_positions.filter (fun p => decide (p.2 > 0))).length

/-- The body of the `for sig in signals` loop of
`RiskManager.process_signals` (manager.py), with the global order counter
threaded through: returns the emitted orders in source order and the final
counter value.
The source indexes `feed._data[sig.symbol]` via `feed.history`; the
`.getD []` default is unreachable in engine runs because every signal
symbol the loop acts on has a bar in `market_events`, which only contains
feed symbols. -/
def processSignalsAux (rm : RiskManager)
    (market_events : List (String × MarketEvent)) (feed : BarFeed)
    (equity : ℚ) (open_positions : List (String × ℚ)) :
    List SignalEvent → ℕ → List OrderEvent × ℕ
  | [], c => ([], c)
  | sig :: rest, c =>
    match market_events.lookup sig.symbol with
    | none => processSignalsAux rm market_events feed equity open_positions rest c
    | some bar =>
      let price := bar.close
      let hist := (feed.history sig.symbol sig.timestamp (some (rm.atr_period + 5))).getD []
      let atr := compute_atr hist rm.atr_period
      let held_qty := (open_positions.lookup sig.symbol).getD 0
      match sig.direction with
      | SignalDirection.long =>
        if held_qty > 0 then
          processSignalsAux rm market_events feed equity open_positions rest c
        else if !rm.allow_short ∧ countLongs open_positions ≥ rm.max_open_positions then
          processSignalsAux rm market_events feed equity open_positions rest c
        else
          let qty := rm.sizer equity price atr sig.strength
          if qty ≤ 0 then
            processSignalsAux rm market_events feed equity open_positions rest c
          else
            let sl := pyOr sig.stop_loss (atr.map (fun a => price - a * rm.stop_atr_mult))
            let tp := pyOr sig.take_profit (atr.map (fun a => price + a * rm.tp_atr_mult))
            let order : OrderEvent :=
              { timestamp := sig.timestamp, symbol := sig.symbol,
                order_type := OrderType.market, side := OrderSide.buy,
                quantity := qty, limit_price := none, stop_loss := sl,
                take_profit := tp, order_id := c + 1,
                status := OrderStatus.pending }
            let r := processSignalsAux rm market_events feed equity open_positions rest (c + 1)
            (order :: r.1, r.2)
      | SignalDirection.flat =>
        if held_qty > 0 then
          let order : OrderEvent :=
            { timestamp := sig.timestamp, symbol := sig.symbol,
              order_type := OrderType.market, side := OrderSide.sell,
              quantity := held_qty, limit_price := none, stop_loss := none,
              take_profit := none, order_id := c + 1,
              status := OrderStatus.pending }
          let r := processSignalsAux rm market_events feed equity open_positions rest (c + 1)
          (order :: r.1, r.2)
        else if held_qty < 0 ∧ rm.allow_short then
          let order : OrderEvent :=
            { timestamp := sig.timestamp, symbol := sig.symbol,
              order_type := OrderType.market, side := OrderSide.buy,
              quantity := |held_qty|, limit_price := none, stop_loss := none,
              take_profit := none, order_id := c + 1,
              status := OrderStatus.pending }
          let r := processSignalsAux rm market_events feed equity open_positions rest (c + 1)
          (order :: r.1, r.2)
        else
          processSignalsAux rm market_events feed equity open_positions rest c
      | SignalDirection.short =>
        if rm.allow_short then
          if held_qty < 0 then
            processSignalsAux rm market_events feed equity open_positions rest c
          else
            let qty := rm.sizer equity price atr sig.strength
            if qty ≤ 0 then
              processSignalsAux rm market_events feed equity open_positions rest c
            else
              let order : OrderEvent :=
                { timestamp := sig.timestamp, symbol := sig.symbol,
                  order_type := OrderType.market, side := OrderSide.sell,
                  quantity := qty, limit_price := none, stop_loss := none,
                  take_profit := none, order_id := c + 1,
                  status := OrderStatus.pending }
              let r := processSignalsAux rm market_events feed equity open_positions rest (c + 1)
              (order :: r.1, r.2)
        else
          processSignalsAux rm market_events feed equity open_positions rest c

/-- `RiskManager.process_signals` from manager.py. -/
def RiskManager.process_signals (rm : RiskManager) (signals : List SignalEvent)
    (market_events : List (String × MarketEvent)) (feed : BarFeed)
    (equity : ℚ) (open_positions : List (String × ℚ)) (counter : ℕ) :
    List OrderEvent × ℕ :=
  processSignalsAux rm market_events feed equity open_positions signals counter

/-- One entry of `Portfolio.open_positions_detail`
(`{qty, entry, stop_loss, take_profit}`). -/
structure PosDetail where
  qty : ℚ
  entry : ℚ
  stop_loss : Option ℚ
  take_profit : Option ℚ
deriving DecidableEq, Repr

/-- The body of the `for symbol, pos in open_positions_detail.items()` loop
of `RiskManager.check_stop_conditions` (manager.py), with the order counter
threaded.  Note the Python truthiness (`if sl and ...`): a stop of `None`
or `0.0` never triggers; and only long (`qty > 0`) positions are checked —
the source has no short branch. -/
def checkStopAux (market_events : List (String × MarketEvent)) :
    List (String × PosDetail) → ℕ → List OrderEvent × ℕ
  | [], c => ([], c)
  | (symbol, pos) :: rest, c =>
    match market_events.lookup symbol with
    | none => checkStopAux market_events rest c
    | some bar =>
      if pos.qty = 0 then checkStopAux market_events rest c
      else if pos.qty > 0 then
        if pyTruthy pos.stop_loss ∧ bar.low ≤ pos.stop_loss.getD 0 then
          let order : OrderEvent :=
            { timestamp := bar.timestamp, symbol := symbol,
              order_type := OrderType.market, side := OrderSide.sell,
              quantity := pos.qty, limit_price := none, stop_loss := none,
              take_profit := none, order_id := c + 1,
              status := OrderStatus.pending }
          let r := checkStopAux market_events rest (c + 1)
          (order :: r.1, r.2)
        else if pyTruthy pos.take_profit ∧ bar.high ≥ pos.take_profit.getD 0 then
          let order : OrderEvent :=
            { timestamp := bar.timestamp, symbol := symbol,
              order_type := OrderType.market, side := OrderSide.sell,
              quantity := pos.qty, limit_price := none, stop_loss := none,
              take_profit := none, order_id := c + 1,
              status := OrderStatus.pending }
          let r := checkStopAux market_events rest (c + 1)
          (order :: r.1, r.2)
        else checkStopAux market_events rest c
      else checkStopAux market_events rest c

/-- `RiskManager.check_stop_conditions` from manager.py. -/
def check_stop_conditions (open_positions_detail : List (String × PosDetail))
    (market_events : List (String × MarketEvent)) (counter : ℕ) :
    List OrderEvent × ℕ :=
  checkStopAux market_events open_positions_detail counter

/-- `FixedSlippage` from broker.py: `price * (bps / 10_000)`. -/
def FixedSlippage (bps : ℚ) (_side : OrderSide) (price _quantity : ℚ)
    (_bar : MarketEvent) : ℚ :=
  price * (bps / 10000)

/-- `PercentCommission` from broker.py: `quantity * fill_price * pct`. -/
def PercentCommission (pct : ℚ) (quantity fill_price : ℚ) : ℚ :=
  quantity * fill_price * pct

/-- `PerShareCommission` from broker.py: `max(quantity * rate, min_fee)`. -/
def PerShareCommission (rate min_fee : ℚ) (quantity _fill_price : ℚ) : ℚ :=
  max (quantity * rate) min_fee

/-- One entry of `SimulatedBroker._pending`:
`{"order": OrderEvent, "bars_waited": int}`. -/
structure PendingItem where
  order : OrderEvent
  bars_waited : ℕ
deriving DecidableEq, Repr

/-- The immutable configuration of `SimulatedBroker.__init__` (broker.py).
`slippage` and `commission` are the pluggable model objects, as functions
with the calling shapes of `BaseSlippage.apply` and
`BaseCommission.calculate`. -/
structure BrokerConfig where
  slippage : OrderSide → ℚ → ℚ → MarketEvent → ℚ
  commission : ℚ → ℚ → ℚ
  max_bars_pending : ℕ

/-- The default `SimulatedBroker()` configuration:
`FixedSlippage(bps=5)`, `PercentCommission(pct=0.001)`,
`max_bars_pending=1`. -/
def BrokerConfig.default : BrokerConfig :=
  { slippage := FixedSlippage 5, commission := PercentCommission (1/1000),
    max_bars_pending := 1 }

/-- `SimulatedBroker._try_fill` from broker.py.  A `LIMIT` order with
`limit_price = None` would raise a `TypeError` on the comparison in the
source; modelled as no fill (such orders are never constructed by the
risk manager). -/
def tryFill (order : OrderEvent) (bar : MarketEvent) : Option ℚ :=
  match order.order_type with
  | OrderType.market => some bar.open_
  | OrderType.limit =>
    match order.limit_price with
    | none => none
    | some lp =>
      if order.side = OrderSide.buy ∧ bar.low ≤ lp then some (min lp bar.open_)
      else if order.side = OrderSide.sell ∧ bar.high ≥ lp then some (max lp bar.open_)
      else none

/-- The body of the `for item in self._pending` loop of
`SimulatedBroker.process_bar` (broker.py).  Returns, in FIFO order,
`(fills, still_pending, cancelled)`: the fills emitted this bar, the items
carried over (with their incremented `bars_waited`), and the orders whose
status was set to `CANCELLED` and which were dropped from the queue. -/
def processBarAux (cfg : BrokerConfig)
    (market_events : List (String × MarketEvent))
    (strategy_id_map : List (ℕ × String)) :
    List PendingItem → List FillEvent × List PendingItem × List OrderEvent
  | [] => ([], [], [])
  | item :: rest =>
    let order := item.order
    let waited := item.bars_waited + 1
    let r := processBarAux cfg market_events strategy_id_map rest
    match market_events.lookup order.symbol with
    | none =>
      (r.1, { order := order, bars_waited := waited } :: r.2.1, r.2.2)
    | some bar =>
      match tryFill order bar with
      | some fp0 =>
        let slip := cfg.slippage order.side fp0 order.quantity bar
        let fill_price :=
          if order.side = OrderSide.buy then fp0 + slip else fp0 - slip
        let comm := cfg.commission order.quantity fill_price
        let fill : FillEvent :=
          { timestamp := bar.timestamp, symbol := order.symbol,
            side := order.side, quantity := order.quantity,
            fill_price := fill_price, commission := comm,
            slippage := slip * order.quantity, order_id := order.order_id,
            strategy_id := (strategy_id_map.lookup order.order_id).getD "" }
        (fill :: r.1, r.2.1, r.2.2)
      | none =>
        if waited ≥ cfg.max_bars_pending then
          (r.1, r.2.1, { order with status := OrderStatus.cancelled } :: r.2.2)
        else
          (r.1, { order := order, bars_waited := waited } :: r.2.1, r.2.2)

/-- `SimulatedBroker.process_bar` from broker.py, acting on the pending
queue and returning the fills together with the new queue and the orders
cancelled on this bar. -/
def process_bar (cfg : BrokerConfig)
    (market_events : List (String × MarketEvent))
    (strategy_id_map : List (ℕ × String)) (pending : List PendingItem) :
    List FillEvent × List PendingItem × List OrderEvent :=
  processBarAux cfg market_events strategy_id_map pending

/-- `Position` from portfolio.py.  `quantity`: positive = long,
negative = short. -/
structure Position where
  symbol : String
  quantity : ℚ
  avg_entry : ℚ
  stop_loss : Option ℚ
  take_profit : Option ℚ
  realized_pnl : ℚ
deriving DecidableEq, Repr

/-- `TradeRecord` from portfolio.py. -/
structure TradeRecord where
  timestamp : ℕ
  symbol : String
  side : OrderSide
  quantity : ℚ
  fill_price : ℚ
  commission : ℚ
  slippage : ℚ
  pnl : ℚ
  order_id : ℕ
  strategy_id : String
deriving DecidableEq, Repr

/-- One row of `Portfolio._equity_curve` (the dict appended by
`mark_to_market`). -/
structure EquitySnapshot where
  timestamp : ℕ
  cash : ℚ
  holdings_value : ℚ
  equity : ℚ
  realized_pnl : ℚ
  unrealized_pnl : ℚ
  drawdown : ℚ
deriving DecidableEq, Repr

/-- CPython dict assignment `d[k] = v` on an insertion-ordered association
list: replaces in place when the key exists, appends otherwise. -/
def setKey {α : Type} (l : List (String × α)) (k : String) (v : α) :
    List (String × α) :=
  if l.any (fun p => p.1 == k) then
    l.map (fun p => if p.1 == k then (k, v) else p)
  else l ++ [(k, v)]

/-- CPython `del d[k]` on an association list. -/
def delKey {α : Type} (l : List (String × α)) (k : String) :
    List (String × α) :=
  l.filter (fun p => p.1 != k)

/-- `Portfolio` state from portfolio.py. -/
structure Portfolio where
  initial_capital : ℚ
  cash : ℚ
  positions : List (String × Position)
  equity_curve : List EquitySnapshot
  trades : List TradeRecord
  total_commission : ℚ
  total_slippage : ℚ
deriving Repr

/-- `Portfolio.__init__(initial_capital)`. -/
def Portfolio.init (initial_capital : ℚ) : Portfolio :=
  { initial_capital := initial_capital, cash := initial_capital,
    positions := [], equity_curve := [], trades := [],
    total_commission := 0, total_slippage := 0 }

/-- `Portfolio._record_trade` from portfolio.py. -/
def record_trade (p : Portfolio) (fill : FillEvent) (pnl : ℚ) : Portfolio :=
  { p with trades := p.trades ++ [{
      timestamp := fill.timestamp, symbol := fill.symbol, side := fill.side,
      quantity := fill.quantity, fill_price := fill.fill_price,
      commission := fill.commission, slippage := fill.slippage, pnl := pnl,
      order_id := fill.order_id, strategy_id := fill.strategy_id }] }

/-- `Portfolio._process_buy` from portfolio.py: average up an existing LONG
position, else `self._positions[sym] = Position(...)` (which OVERWRITES a
non-long entry); the fresh position carries no stop/take-profit.  Records
the trade with pnl 0. -/
def processBuy (p : Portfolio) (fill : FillEvent) : Portfolio :=
  let fresh : Position :=
    { symbol := fill.symbol, quantity := fill.quantity
      avg_entry := fill.fill_price, stop_loss := none
      take_profit := none, realized_pnl := 0 }
  let p1 :=
    match p.positions.lookup fill.symbol with
    | some pos =>
      if pos.quantity > 0 then
        let total_qty := pos.quantity + fill.quantity
        let avg_entry := (pos.quantity * pos.avg_entry +
          fill.quantity * fill.fill_price) / total_qty
        let pos' := { pos with quantity := total_qty, avg_entry := avg_entry }
        { p with positions := setKey p.positions fill.symbol pos' }
      else
        { p with positions := setKey p.positions fill.symbol fresh }
    | none =>
      { p with positions := setKey p.positions fill.symbol fresh }
  record_trade p1 fill 0

/-- `Portfolio._process_sell` from portfolio.py.  When no position exists
for the symbol, nothing is opened (no short): only a trade with pnl 0 is
recorded.  A position whose remaining `|quantity| < 1e-9` is deleted. -/
def processSell (p : Portfolio) (fill : FillEvent) : ℚ × Portfolio :=
  match p.positions.lookup fill.symbol with
  | some pos =>
    let realized := (fill.fill_price - pos.avg_entry) * fill.quantity
    let newQty := pos.quantity - fill.quantity
    let pos' :=
      { pos with quantity := newQty, realized_pnl := pos.realized_pnl + realized }
    let positions' :=
      if |newQty| < 1 / 1000000000 then delKey p.positions fill.symbol
      else setKey p.positions fill.symbol pos'
    (realized, record_trade { p with positions := positions' } fill realized)
  | none => (0, record_trade p fill 0)

/-- `Portfolio.on_fill` from portfolio.py.  BUY decrements cash by
`fill_price*qty + commission`; SELL increments cash by
`fill_price*qty - commission`. -/
def Portfolio.on_fill (p : Portfolio) (fill : FillEvent) : Portfolio :=
  let p1 :=
    if fill.side = OrderSide.buy then
      let pb := processBuy p fill
      { pb with cash := pb.cash - (fill.fill_price * fill.quantity + fill.commission) }
    else
      let ps := (processSell p fill).2
      { ps with cash := ps.cash + (fill.fill_price * fill.quantity - fill.commission) }
  { p1 with total_commission := p1.total_commission + fill.commission,
            total_slippage := p1.total_slippage + fill.slippage }

/-- The price at which `mark_to_market` values a position:
`market_events[sym].close` when a bar is present, else the stale
`avg_entry`. -/
def priceUsed (market_events : List (String × MarketEvent)) (sym : String)
    (pos : Position) : ℚ :=
  match market_events.lookup sym with
  | some bar => bar.close
  | none => pos.avg_entry

/-- The `for sym, pos in self._positions.items()` accumulation loop of
`Portfolio.mark_to_market`: running `(holdings_value, unrealized_pnl)`. -/
def mtmAccum (market_events : List (String × MarketEvent)) :
    List (String × Position) → ℚ × ℚ → ℚ × ℚ
  | [], acc => acc
  | (sym, pos) :: rest, acc =>
    let price := priceUsed market_events sym pos
    mtmAccum market_events rest
      (acc.1 + pos.quantity * price, acc.2 + (price - pos.avg_entry) * pos.quantity)

/-- `Portfolio.mark_to_market` from portfolio.py: computes equity, appends
a snapshot, returns the new state and the equity. -/
def Portfolio.mark_to_market (p : Portfolio) (timestamp : ℕ)
    (market_events : List (String × MarketEvent)) : Portfolio × ℚ :=
  let hv_upnl := mtmAccum market_events p.positions (0, 0)
  let equity := p.cash + hv_upnl.1
  let realized_pnl := (p.trades.map (fun t => t.pnl)).sum
  ({ p with equity_curve := p.equity_curve ++ [{
      timestamp := timestamp, cash := p.cash, holdings_value := hv_upnl.1,
      equity := equity, realized_pnl := realized_pnl,
      unrealized_pnl := hv_upnl.2, drawdown := 0 }] }, equity)

/-- The `Portfolio.equity` property from portfolio.py:
`self._equity_curve[-1]["equity"] if self._equity_curve else
self.initial_capital`. -/
def Portfolio.equity (p : Portfolio) : ℚ :=
  match p.equity_curve.getLast? with
  | some snap => snap.equity
  | none => p.initial_capital

/-- The `Portfolio.open_positions` property: symbol → quantity. -/
def Portfolio.open_positions (p : Portfolio) : List (String × ℚ) :=
  p.positions.map (fun sp => (sp.1, sp.2.quantity))

/-- The `Portfolio.open_positions_detail` property. -/
def Portfolio.open_positions_detail (p : Portfolio) :
    List (String × PosDetail) :=
  p.positions.map (fun sp =>
    (sp.1, { qty := sp.2.quantity, entry := sp.2.avg_entry,
             stop_loss := sp.2.stop_loss, take_profit := sp.2.take_profit }))

/-- `BarFeed.__iter__` from loader.py: the events dict for one timestamp of
the master index — only symbols having a bar at `ts` appear (the
`ts in df.index` check; validated data has unique timestamps, so `find?`
is `df.loc[ts]`). -/
def barsAt (feed : BarFeed) (ts : ℕ) : List (String × MarketEvent) :=
  feed.data.filterMap (fun sd =>
    (sd.2.find? (fun b => b.timestamp == ts)).map (fun row => (sd.1, row)))

/-- The master timestamp index of `BarFeed.__init__`: the sorted union of
all symbols' timestamps (`pd.concat(..., axis=1).sort_index().index`). -/
def BarFeed.index (feed : BarFeed) : List ℕ :=
  (((feed.data.map (fun sd => sd.2.map (fun b => b.timestamp))).flatten).dedup).insertionSort (· ≤ ·)

/-- `BarFeed.__iter__`: the `(timestamp, {symbol: MarketEvent})` pairs, in
index order, skipping timestamps where no symbol has a bar
(`if events: yield ts, events`). -/
def BarFeed.iterBars (feed : BarFeed) : List (ℕ × List (String × MarketEvent)) :=
  (feed.index.map (fun ts => (ts, barsAt feed ts))).filter
    (fun te => !te.2.isEmpty)

/-- The components and configuration `BacktestEngine.__init__` wires
together (engine.py).  The strategy layer is modelled as the joint
per-bar signal function: what `strat.on_bar(ts, bars)` followed by
`strat.flush_signals()` yields, concatenated over `self.strategies` —
each signal already carries its `strategy_id` (set by
`BaseStrategy.emit_signal`).  Strategy `on_fill` notifications are no-ops
for engine state in the source and are not modelled. -/
structure EngineConfig where
  feed : BarFeed
  strategy : ℕ → List (String × MarketEvent) → List SignalEvent
  broker : BrokerConfig
  risk : RiskManager
  initial_capital : ℚ

/-- The engine-side mutable state during `BacktestEngine.run`:
the portfolio, the broker's pending queue, `_order_strategy_map`, and the
module-global `_order_counter` of core.py.
`sizing_equities` is verification instrumentation only: it records, per
bar, the `equity=self.portfolio.equity` argument the engine passed to
`process_signals` (engine.py step 3); no engine behaviour depends on it. -/
structure EngineState where
  portfolio : Portfolio
  pending : List PendingItem
  order_strategy_map : List (ℕ × String)
  counter : ℕ
  sizing_equities : List ℚ

/-- The state at the top of `BacktestEngine.run`, with the module-global
order counter at `counter0` (0 for the first run in a fresh process). -/
def initState (cfg : EngineConfig) (counter0 : ℕ) : EngineState :=
  { portfolio := Portfolio.init cfg.initial_capital, pending := [],
    order_strategy_map := [], counter := counter0, sizing_equities := [] }

/-- One iteration of the `for timestamp, market_events in self.feed` loop
of `BacktestEngine.run` (engine.py):
1. risk stop/TP sweep, submitting each order attributed `"__risk__"`;
2. strategy dispatch collecting signals;
3. `process_signals`, submitting each order attributed to the first
   signal with the order's symbol (`next(...)`), else `""`;
4. `broker.process_bar` on the CURRENT bar's events (note: the queue
   already contains the orders submitted in steps 1 and 3 of this bar);
5. `portfolio.on_fill` for each fill;
6. `mark_to_market`. -/
def engineStep (cfg : EngineConfig) (st : EngineState)
    (bar : ℕ × List (String × MarketEvent)) : EngineState :=
  let ts := bar.1
  let market_events := bar.2
  let stops := check_stop_conditions st.portfolio.open_positions_detail
    market_events st.counter
  let map1 := st.order_strategy_map ++
    stops.1.map (fun o => (o.order_id, "__risk__"))
  let pending1 := st.pending ++
    stops.1.map (fun o => { order := o, bars_waited := 0 })
  let all_signals := cfg.strategy ts market_events
  let sizingEquity := st.portfolio.equity
  let orders := cfg.risk.process_signals all_signals market_events cfg.feed
    sizingEquity st.portfolio.open_positions stops.2
  let map2 := map1 ++ orders.1.map (fun o =>
    (o.order_id,
      match all_signals.find? (fun s => s.symbol == o.symbol) with
      | some s => s.strategy_id
      | none => ""))
  let pending2 := pending1 ++
    orders.1.map (fun o => { order := o, bars_waited := 0 })
  let r := process_bar cfg.broker market_events map2 pending2
  let p1 := r.1.foldl Portfolio.on_fill st.portfolio
  let p2 := (p1.mark_to_market ts market_events).1
  { portfolio := p2, pending := r.2.1, order_strategy_map := map2,
    counter := orders.2,
    sizing_equities := st.sizing_equities ++ [sizingEquity] }

/-- The `for timestamp, market_events in self.feed` loop of
`BacktestEngine.run` over a list of bars. -/
def runBars (cfg : EngineConfig) (st : EngineState)
    (bars : List (ℕ × List (String × MarketEvent))) : EngineState :=
  bars.foldl (engineStep cfg) st

/-- `BacktestEngine.run` from engine.py, starting from a module-global
order counter value `counter0`. -/
def run (cfg : EngineConfig) (counter0 : ℕ) : EngineState :=
  runBars cfg (initState cfg counter0) cfg.feed.iterBars

/-! Concrete scenarios used to evaluate the embedded engine on the inputs
that decide the claims. -/

/-- A flat bar of symbol "A" at time 1. -/
def barA1 : MarketEvent :=
  { timestamp := 1, symbol := "A", open_ := 100, high := 100, low := 100,
    close := 100, volume := 1000 }

/-- A bar of symbol "A" at time 2. -/
def barA2 : MarketEvent :=
  { timestamp := 2, symbol := "A", open_ := 101, high := 101, low := 101,
    close := 101, volume := 1000 }

/-- A bar of symbol "A" at time 2 whose low (97) breaches a stop at 98. -/
def barA2drop : MarketEvent :=
  { timestamp := 2, symbol := "A", open_ := 100, high := 100, low := 97,
    close := 97, volume := 1000 }

/-- Two-bar feed for symbol "A". -/
def feedA : BarFeed := { data := [("A", [barA1, barA2])] }

/-- Two-bar feed where the second bar breaches the stop level. -/
def feedDrop : BarFeed := { data := [("A", [barA1, barA2drop])] }

/-- A `RiskManager(sizer=FixedFractionSizer(0.05))` with the default
risk configuration of manager.py. -/
def rmDemo : RiskManager :=
  { sizer := FixedFractionSizer (5/100), atr_period := 14,
    stop_atr_mult := 2, tp_atr_mult := 4, max_open_positions := 10,
    allow_short := false }

/-- A `SimulatedBroker(FixedSlippage(0), PercentCommission(0))`:
zero-friction execution, `max_bars_pending = 1`. -/
def brokerZero : BrokerConfig :=
  { slippage := FixedSlippage 0, commission := PercentCommission 0,
    max_bars_pending := 1 }

/-- A LONG signal on "A" emitted at bar 1, no explicit stop. -/
def sigLongA1 : SignalEvent :=
  { timestamp := 1, symbol := "A", strategy_id := "demo",
    direction := SignalDirection.long, strength := 1, stop_loss := none,
    take_profit := none }

/-- A LONG signal on "A" at bar 1 carrying an explicit stop at 98. -/
def sigLongStop : SignalEvent :=
  { timestamp := 1, symbol := "A", strategy_id := "demo",
    direction := SignalDirection.long, strength := 1, stop_loss := some 98,
    take_profit := none }

/-- A strategy that emits one LONG signal on the first bar. -/
def stratDemo (ts : ℕ) (_bars : List (String × MarketEvent)) :
    List SignalEvent :=
  if ts = 1 then [sigLongA1] else []

/-- A strategy that emits one LONG signal with a stop at 98 on the first
bar. -/
def stratStop (ts : ℕ) (_bars : List (String × MarketEvent)) :
    List SignalEvent :=
  if ts = 1 then [sigLongStop] else []

/-- Engine wiring for the next-bar-fill scenario (spec Scenario C shape). -/
def cfgDemo : EngineConfig :=
  { feed := feedA, strategy := stratDemo, broker := brokerZero,
    risk := rmDemo, initial_capital := 100000 }

/-- Engine wiring for the stop-loss-trigger scenario (spec Scenario D
shape). -/
def cfgStop : EngineConfig :=
  { feed := feedDrop, strategy := stratStop, broker := brokerZero,
    risk := rmDemo, initial_capital := 100000 }

/-- A bar of symbol "B" at time 1 (used on bars where "A" has no data). -/
def barB1 : MarketEvent :=
  { timestamp := 1, symbol := "B", open_ := 50, high := 50, low := 50,
    close := 50, volume := 1000 }

/-- A pending MARKET BUY order on "A" (order id 1, created at time 1). -/
def orderMktA : OrderEvent :=
  { timestamp := 1, symbol := "A", order_type := OrderType.market,
    side := OrderSide.buy, quantity := 1, limit_price := none,
    stop_loss := none, take_profit := none, order_id := 1,
    status := OrderStatus.pending }

/-- The exact condition under which `SimulatedBroker.process_bar` cancels
a pending entry on the current bar: a bar for the order's symbol is
present, `_try_fill` fails, and the incremented `bars_waited` has reached
`max_bars_pending`. -/
def cancelCond (cfg : BrokerConfig)
    (market_events : List (String × MarketEvent)) (it : PendingItem) : Bool :=
  match market_events.lookup it.order.symbol with
  | none => false
  | some bar =>
    (tryFill it.order bar).isNone &&
      decide (cfg.max_bars_pending ≤ it.bars_waited + 1)

/-- A risk manager with `allow_short=True` and `max_open_positions=0`
(FixedFractionSizer(0.05)). -/
def rmShortOK : RiskManager :=
  { sizer := FixedFractionSizer (5/100), atr_period := 14,
    stop_atr_mult := 2, tp_atr_mult := 4, max_open_positions := 0,
    allow_short := true }

/-- A risk manager with `allow_short=False` and `max_open_positions=0`. -/
def rmCap0 : RiskManager :=
  { sizer := FixedFractionSizer (5/100), atr_period := 14,
    stop_atr_mult := 2, tp_atr_mult := 4, max_open_positions := 0,
    allow_short := false }

/-- A FLAT signal on "A" at time 1. -/
def sigFlatA : SignalEvent :=
  { timestamp := 1, symbol := "A", strategy_id := "demo",
    direction := SignalDirection.flat, strength := 1, stop_loss := none,
    take_profit := none }

/-- A SELL fill on "A" (quantity 5 at 100, no friction). -/
def sellFillA : FillEvent :=
  { timestamp := 1, symbol := "A", side := OrderSide.sell, quantity := 5,
    fill_price := 100, commission := 0, slippage := 0, order_id := 7,
    strategy_id := "" }

/-- A BUY fill on "A" (quantity 5 at 90, no friction). -/
def buyFillA : FillEvent :=
  { timestamp := 2, symbol := "A", side := OrderSide.buy, quantity := 5,
    fill_price := 90, commission := 0, slippage := 0, order_id := 8,
    strategy_id := "" }

/-! Relabelling of order ids, used to relate two engine runs that start
from different values of the module-global order counter. -/

/-- Shift an order's id by `c`. -/
def shiftOrder (c : ℕ) (o : OrderEvent) : OrderEvent :=
  { o with order_id := o.order_id + c }

/-- Shift a fill's order id by `c`. -/
def shiftFill (c : ℕ) (f : FillEvent) : FillEvent :=
  { f with order_id := f.order_id + c }

/-- Shift a trade record's order id by `c`. -/
def shiftTrade (c : ℕ) (t : TradeRecord) : TradeRecord :=
  { t with order_id := t.order_id + c }

/-- Shift a pending item's order id by `c`. -/
def shiftItem (c : ℕ) (it : PendingItem) : PendingItem :=
  { it with order := shiftOrder c it.order }

/-- Shift the keys of the order→strategy map by `c`. -/
def shiftMap (c : ℕ) (m : List (ℕ × String)) : List (ℕ × String) :=
  m.map (fun p => (p.1 + c, p.2))

/-- Shift every order id occurring in a portfolio (only trade records
mention order ids). -/
def shiftPortfolio (c : ℕ) (p : Portfolio) : Portfolio :=
  { p with trades := p.trades.map (shiftTrade c) }

/-- Shift every order id occurring in an engine state. -/
def shiftState (c : ℕ) (st : EngineState) : EngineState :=
  { portfolio := shiftPortfolio c st.portfolio,
    pending := st.pending.map (shiftItem c),
    order_strategy_map := shiftMap c st.order_strategy_map,
    counter := st.counter + c,
    sizing_equities := st.sizing_equities }

/-- Erase the order id column of a trade record (for comparing trade logs
up to the `order_id` column). -/
def stripId (t : TradeRecord) : TradeRecord :=
  { t with order_id := 0 }

/-! ## Helper lemmas -/

theorem takeLast_sublist_mem {α : Type} {n : ℕ} {l : List α} {a : α}
    (h : a ∈ takeLast n l) : a ∈ l := by
  simpa [takeLast] using List.mem_of_mem_drop h

theorem takeLast_length_le {α : Type} (n : ℕ) (l : List α) :
    (takeLast n l).length ≤ n ∨ (takeLast n l).length = l.length := by
  simp only [takeLast, List.length_drop]
  omega

theorem takeLast_length_le_self {α : Type} (n : ℕ) (l : List α) :
    (takeLast n l).length ≤ n := by
  simp only [takeLast, List.length_drop]
  omega

theorem takeLast_length_of_le {α : Type} {n : ℕ} {l : List α}
    (h : n ≤ l.length) : (takeLast n l).length = n := by
  simp only [takeLast, List.length_drop]
  omega

theorem mtmAccum_fst (events : List (String × MarketEvent))
    (l : List (String × Position)) (acc : ℚ × ℚ) :
    (mtmAccum events l acc).1 =
      acc.1 + (l.map (fun sp => sp.2.quantity * priceUsed events sp.1 sp.2)).sum := by
  induction l generalizing acc with
  | nil => simp [mtmAccum]
  | cons hd tl ih =>
    obtain ⟨sym, pos⟩ := hd
    simp only [mtmAccum, ih, List.map_cons, List.sum_cons]
    ring

theorem trueRanges_length (rows : List MarketEvent) :
    (trueRanges rows).length = rows.length - 1 := by
  cases rows with
  | nil => simp [trueRanges]
  | cons x xs => simp [trueRanges, List.length_zip]

theorem zip_tail_get (rows : List MarketEvent) (j : ℕ) :
    (rows.zip rows.tail).get? j =
      (rows.get? j).bind (fun a => (rows.get? (j + 1)).map (fun b => (a, b))) := by
  induction rows generalizing j with
  | nil => simp
  | cons x xs ih =>
    cases xs with
    | nil => cases j <;> simp
    | cons y ys =>
      cases j with
      | zero => simp
      | succ j =>
        simpa using ih j

/-! ## Theorems -/

/-- Claim C1: `engine.run` calls `broker.process_bar` on bar T with the
orders submitted during steps 1–3 of the SAME bar already in the pending
queue, so a MARKET order created during bar T fills at bar T's own open:
in the scenario below, the single order is created at bar 1
(`order_id = 1`, order timestamp 1) and the resulting trade also has
timestamp 1 — the fill timestamp is NOT strictly greater than the
creation bar, contradicting the claimed no-same-bar-fill rule (and the
engine's and broker's own docstrings, which promise next-bar fills). -/
theorem same_bar_fill :
    (run cfgDemo 0).portfolio.trades =
      [{ timestamp := 1, symbol := "A", side := OrderSide.buy, quantity := 50,
         fill_price := 100, commission := 0, slippage := 0, pnl := 0,
         order_id := 1, strategy_id := "demo" }] ∧
    (rmDemo.process_signals [sigLongA1] (barsAt feedA 1) feedA 100000 [] 0).1.map
      (fun o => (o.order_id, o.timestamp)) = [(1, 1)] := by
  norm_num [run, runBars, engineStep, initState, cfgDemo, feedA, BarFeed.iterBars,
    BarFeed.index, barsAt, barA1, barA2, stratDemo, sigLongA1, rmDemo, brokerZero,
    check_stop_conditions, checkStopAux, RiskManager.process_signals,
    processSignalsAux, countLongs, compute_atr, trueRanges, takeLast,
    BarFeed.history, FixedFractionSizer, pyOr, pyTruthy, Portfolio.init,
    Portfolio.equity, Portfolio.open_positions, Portfolio.open_positions_detail,
    process_bar, processBarAux, tryFill, FixedSlippage, PercentCommission,
    Portfolio.on_fill, processBuy, processSell, record_trade, setKey, delKey,
    Portfolio.mark_to_market, mtmAccum, priceUsed, List.lookup,
    List.insertionSort, List.orderedInsert]

/-- Claim C2: the stop-loss trigger path is dead end-to-end.  In the
scenario, the entry BUY order carries `stop_loss = 98` (third conjunct),
the fill opens a long position, and bar 2's low (97) breaches 98 (fourth
conjunct) — yet the run's trade log contains only the entry BUY and never
a `__risk__` SELL (first conjunct), because the engine never calls
`Portfolio.attach_stop_tp`, so the position's `stop_loss` stays `None`
(second conjunct) and `check_stop_conditions` sees nothing to trigger. -/
theorem stop_loss_path_ineffective :
    (run cfgStop 0).portfolio.trades.map (fun t => (t.side, t.strategy_id)) =
      [(OrderSide.buy, "demo")] ∧
    (run cfgStop 0).portfolio.positions.lookup "A" =
      some { symbol := "A", quantity := 50, avg_entry := 100,
             stop_loss := none, take_profit := none, realized_pnl := 0 } ∧
    (rmDemo.process_signals [sigLongStop] (barsAt feedDrop 1) feedDrop
        100000 [] 0).1.map (fun o => o.stop_loss) = [some 98] ∧
    barA2drop.low ≤ 98 := by
  norm_num [run, runBars, engineStep, initState, cfgStop, feedDrop,
    BarFeed.iterBars, BarFeed.index, barsAt, barA1, barA2drop, stratStop,
    sigLongStop, rmDemo, brokerZero, check_stop_conditions, checkStopAux,
    RiskManager.process_signals, processSignalsAux, countLongs, compute_atr,
    trueRanges, takeLast, BarFeed.history, FixedFractionSizer, pyOr, pyTruthy,
    Portfolio.init, Portfolio.equity, Portfolio.open_positions,
    Portfolio.open_positions_detail, process_bar, processBarAux, tryFill,
    FixedSlippage, PercentCommission, Portfolio.on_fill, processBuy,
    processSell, record_trade, setKey, delKey, Portfolio.mark_to_market,
    mtmAccum, priceUsed, List.lookup, List.insertionSort, List.orderedInsert]

/-- Claim C5 (failing input): a SELL fill on a symbol with no position
does NOT create a negative-quantity (short) position — `_process_sell`
leaves the positions dict untouched — and the subsequent BUY opens a
fresh LONG at the buy price with pnl 0 instead of covering a short and
realizing P&L against `avg_entry`. -/
theorem sell_without_position_opens_no_short :
    ((Portfolio.init 100000).on_fill sellFillA).positions = [] ∧
    (((Portfolio.init 100000).on_fill sellFillA).on_fill buyFillA).positions =
      [("A", { symbol := "A", quantity := 5, avg_entry := 90,
               stop_loss := none, take_profit := none, realized_pnl := 0 })] ∧
    ((((Portfolio.init 100000).on_fill sellFillA).on_fill
        buyFillA).trades.map (fun t => t.pnl)) = [0, 0] := by
  simp [Portfolio.init, Portfolio.on_fill, processBuy, processSell,
    record_trade, setKey, delKey, sellFillA, buyFillA, List.lookup_cons,
    List.any_cons, List.any_nil, cond_eq_if]

/-- Claim C3 (counterexample): `history` with `n = 0` returns the FULL
filtered history, not "at most the last 0 bars": in Python,
`hist.iloc[-0:]` is `hist.iloc[0:]`.  Here `history("A", up_to=2, n=0)`
returns 2 bars, and `2 ≤ 0` is false. -/
theorem history_n_zero_not_bounded :
    (feedA.history "A" 2 (some 0)).map List.length = some 2 ∧ ¬ (2 ≤ 0) := by
  norm_num [BarFeed.history, feedA, barA1, barA2, takeLast, List.lookup]

/-- Claim C4 (counterexample): with `max_bars_pending = 1`, a pending
MARKET order on "A" processed over two bars on which only "B" has data
reaches `bars_waited = 2 > 1` while remaining PENDING in the queue —
`bars_waited ≤ max_bars_pending` does not hold across bars on which the
order's symbol has no bar, and reaching the limit there cancels
nothing. -/
theorem pending_exceeds_limit :
    (process_bar brokerZero [("B", barB1)] []
        (process_bar brokerZero [("B", barB1)] []
          [{ order := orderMktA, bars_waited := 0 }]).2.1).2.1.map
      (fun it => (it.bars_waited, it.order.status)) =
      [(2, OrderStatus.pending)] ∧
    ¬ (2 ≤ brokerZero.max_bars_pending) := by
  simp [process_bar, processBarAux, tryFill, brokerZero, orderMktA,
    barB1, List.lookup_cons, cond_eq_if]

/-- Claim C6 (counterexample): with `allow_short = True` the
`max_open_positions` cap on LONG signals is not enforced — the guard in
`process_signals` is `not self.allow_short and len(...) >= max`.  Here
`max_open_positions = 0` and the open-long count (0) already meets the
cap, yet a BUY order is emitted for the LONG signal. -/
theorem long_cap_bypassed_when_allow_short :
    (rmShortOK.process_signals [sigLongA1] [("A", barA1)] feedA 100000
        [] 0).1.map (fun o => (o.side, o.symbol)) = [(OrderSide.buy, "A")] ∧
    countLongs [] ≥ rmShortOK.max_open_positions := by
  norm_num [RiskManager.process_signals, processSignalsAux, countLongs,
    compute_atr, trueRanges, takeLast, BarFeed.history, FixedFractionSizer,
    pyOr, pyTruthy, rmShortOK, sigLongA1, barA1, feedA, List.lookup]

/-- Claim C9 (counterexample): back-to-back runs in the same process are
not byte-identical in the `order_id` column: the module-global order
counter is not reset, so the first run's trade log carries order id 1
(`ORD-000001`) and the second run's — started at the counter value the
first run left behind — carries order id 2 (`ORD-000002`); the two trade
logs differ. -/
theorem rerun_order_ids_differ :
    (run cfgDemo 0).portfolio.trades.map (fun t => t.order_id) = [1] ∧
    (run cfgDemo ((run cfgDemo 0).counter)).portfolio.trades.map
      (fun t => t.order_id) = [2] ∧
    (run cfgDemo ((run cfgDemo 0).counter)).portfolio.trades ≠
      (run cfgDemo 0).portfolio.trades := by
  norm_num [run, runBars, engineStep, initState, cfgDemo, feedA, BarFeed.iterBars,
    BarFeed.index, barsAt, barA1, barA2, stratDemo, sigLongA1, rmDemo, brokerZero,
    check_stop_conditions, checkStopAux, RiskManager.process_signals,
    processSignalsAux, countLongs, compute_atr, trueRanges, takeLast,
    BarFeed.history, FixedFractionSizer, pyOr, pyTruthy, Portfolio.init,
    Portfolio.equity, Portfolio.open_positions, Portfolio.open_positions_detail,
    process_bar, processBarAux, tryFill, FixedSlippage, PercentCommission,
    Portfolio.on_fill, processBuy, processSell, record_trade, setKey, delKey,
    Portfolio.mark_to_market, mtmAccum, priceUsed, List.lookup,
    List.insertionSort, List.orderedInsert]

end AlgoTrader

namespace AlgoTrader

/-- Claim C3 (amended): for a symbol present in the feed, `history`
returns only bars with timestamp ≤ `up_to`; when `n ≥ 1` is given it
returns at most the last `n` such bars; but when `n = 0` is given it
returns the FULL filtered history (the Python `iloc[-0:]` slice), not at
most 0 bars. -/
theorem history_no_lookahead (feed : BarFeed) (S : String) (T : ℕ)
    (n : Option ℕ) (df : List MarketEvent)
    (hdf : feed.data.lookup S = some df) :
    ∃ hist, feed.history S T n = some hist ∧
      (∀ b ∈ hist, b.timestamp ≤ T) ∧
      (∀ k, n = some k → 1 ≤ k → hist.length ≤ k) ∧
      (n = some 0 → hist = df.filter (fun b => b.timestamp ≤ T)) := by
  have hmem : ∀ b ∈ df.filter (fun b => decide (b.timestamp ≤ T)),
      b.timestamp ≤ T := by
    intro b hb
    simp only [List.mem_filter, decide_eq_true_eq] at hb
    exact hb.2
  cases n with
  | none =>
    refine ⟨df.filter (fun b => decide (b.timestamp ≤ T)), ?_, hmem, ?_, ?_⟩
    · simp [BarFeed.history, hdf]
    · intro k hk
      cases hk
    · intro h0
      cases h0
  | some k =>
    by_cases hk0 : k = 0
    · subst hk0
      refine ⟨df.filter (fun b => decide (b.timestamp ≤ T)), ?_, hmem, ?_, ?_⟩
      · simp [BarFeed.history, hdf]
      · intro k2 hk2 h1
        injection hk2 with e
        omega
      · intro _
        rfl
    · refine ⟨takeLast k (df.filter (fun b => decide (b.timestamp ≤ T))),
        ?_, ?_, ?_, ?_⟩
      · simp [BarFeed.history, hdf, hk0]
      · intro b hb
        exact hmem b (takeLast_sublist_mem hb)
      · intro k2 hk2 h1
        injection hk2 with e
        exact e ▸ takeLast_length_le_self _ _
      · intro h0
        injection h0 with e
        exact absurd e hk0

/-- Claim C3 amended, exercised at a concrete input
(`history("A", up_to=2, n=1)` on the two-bar feed). -/
theorem history_no_lookahead_witness :
    feedA.data.lookup "A" = some [barA1, barA2] ∧
    (∃ hist, feedA.history "A" 2 (some 1) = some hist ∧
      (∀ b ∈ hist, b.timestamp ≤ 2) ∧
      (∀ k, (some 1 : Option ℕ) = some k → 1 ≤ k → hist.length ≤ k) ∧
      ((some 1 : Option ℕ) = some 0 →
        hist = [barA1, barA2].filter (fun b => b.timestamp ≤ 2))) :=
  ⟨by simp [feedA, List.lookup_cons],
    history_no_lookahead feedA "A" 2 (some 1) [barA1, barA2]
      (by simp [feedA, List.lookup_cons])⟩

/-- Claim C7: every snapshot appended by `mark_to_market` satisfies
equity = cash + Σ over open positions of quantity · price_used, where
price_used is the bar's close when the symbol has a bar this round and
the position's `avg_entry` otherwise.  In this exact-rational model the
identity is exact (hence within 10⁻⁶). -/
theorem mark_to_market_equity_identity (p : Portfolio) (ts : ℕ)
    (events : List (String × MarketEvent)) :
    ∃ snap, ((p.mark_to_market ts events).1).equity_curve =
        p.equity_curve ++ [snap] ∧
      snap.cash = p.cash ∧
      snap.equity = snap.cash +
        (p.positions.map
          (fun sp => sp.2.quantity * priceUsed events sp.1 sp.2)).sum := by
  refine ⟨_, rfl, rfl, ?_⟩
  simp only [Portfolio.mark_to_market, mtmAccum_fst, zero_add]

/-- Claim C8: `compute_atr` returns NaN (`none`) on histories shorter
than `period + 1` bars; on longer histories it returns the arithmetic
mean of the last `period` true ranges, where the `j`-th true range is
`max(H − L, |H − Cprev|, |L − Cprev|)` of rows `j+1` and `j`; and the
ATR sizer maps a NaN ATR to quantity 0. -/
theorem compute_atr_spec (rows : List MarketEvent) (period : ℕ)
    (s : ATRPositionSizer) (equity price strength : ℚ) (hp : 1 ≤ period) :
    (rows.length < period + 1 → compute_atr rows period = none) ∧
    (period + 1 ≤ rows.length →
      compute_atr rows period =
        some ((takeLast period (trueRanges rows)).sum / (period : ℚ))) ∧
    (∀ j cur prev, rows.get? (j + 1) = some cur → rows.get? j = some prev →
      (trueRanges rows).get? j =
        some (max (cur.high - cur.low)
          (max |cur.high - prev.close| |cur.low - prev.close|))) ∧
    s.size equity price none strength = 0 := by
  refine ⟨?_, ?_, ?_, rfl⟩
  · intro h
    simp [compute_atr, h]
  · intro h
    have hnot : ¬ rows.length < period + 1 := by omega
    have hpne : period ≠ 0 := by omega
    have hlen : period ≤ (trueRanges rows).length := by
      rw [trueRanges_length]
      omega
    have htl : (takeLast period (trueRanges rows)).length = period :=
      takeLast_length_of_le hlen
    simp only [compute_atr, if_neg hnot, if_neg hpne, htl]
  · intro j cur prev hcur hprev
    rw [trueRanges, List.get?_map, zip_tail_get, hprev, hcur]
    rfl

/-- Claim C8, exercised concretely: 1 bar with period 1 gives NaN; two
bars with period 1 give the single true range (= 1); the default ATR
sizer returns 0 on NaN. -/
theorem compute_atr_spec_witness :
    (1 : ℕ) ≤ 1 ∧ compute_atr [barA1] 1 = none ∧
    compute_atr [barA1, barA2] 1 = some 1 ∧
    ATRPositionSizer.default.size 100000 100 none 1 = 0 := by
  have h1 := compute_atr_spec [barA1] 1 ATRPositionSizer.default
    100000 100 1 (le_refl 1)
  have h2 := compute_atr_spec [barA1, barA2] 1 ATRPositionSizer.default
    100000 100 1 (le_refl 1)
  refine ⟨le_refl 1, h1.1 (by norm_num), ?_, h1.2.2.2⟩
  rw [h2.2.1 (by norm_num)]
  norm_num [trueRanges, takeLast, barA1, barA2]

end AlgoTrader

namespace AlgoTrader

/-- Claim C4 (amended): `bars_waited` of a pending order can exceed
`max_bars_pending` while bars for its symbol are absent (counterexample
above); what `process_bar` guarantees is: every order that SURVIVES in
the queue either had no bar for its symbol this round or has
`bars_waited < max_bars_pending`; and the orders dropped as cancelled
are exactly those pending entries for which a bar was present, the fill
attempt failed, and the incremented `bars_waited` reached
`max_bars_pending` — each with status set to CANCELLED. -/
theorem process_bar_cancellation (cfg : BrokerConfig)
    (events : List (String × MarketEvent)) (m : List (ℕ × String))
    (items : List PendingItem) :
    ((process_bar cfg events m items).2.1.all (fun it =>
      (events.lookup it.order.symbol).isNone ||
        decide (it.bars_waited < cfg.max_bars_pending))) = true ∧
    (process_bar cfg events m items).2.2 =
      (items.filter (cancelCond cfg events)).map
        (fun it => { it.order with status := OrderStatus.cancelled }) := by
  induction items with
  | nil => simp [process_bar, processBarAux]
  | cons it rest ih =>
    obtain ⟨hall, hcanc⟩ := ih
    simp only [process_bar] at hall hcanc ⊢
    cases hlk : events.lookup it.order.symbol with
    | none =>
      simp [processBarAux, hlk, hall, hcanc, cancelCond, List.filter_cons]
    | some bar =>
      cases hf : tryFill it.order bar with
      | some fp =>
        simp [processBarAux, hlk, hf, hall, hcanc, cancelCond,
          List.filter_cons]
      | none =>
        by_cases hw : cfg.max_bars_pending ≤ it.bars_waited + 1
        · simp [processBarAux, hlk, hf, hw, hall, hcanc, cancelCond,
            List.filter_cons]
        · have hlt : it.bars_waited + 1 < cfg.max_bars_pending := by omega
          simp [processBarAux, hlk, hf, hw, hall, hcanc, cancelCond,
            List.filter_cons, hlt]

/-- Claim C6 (amended): the `max_open_positions` cap suppresses LONG
signals only when `allow_short` is False (the guard is
`not allow_short and count >= max`); under `allow_short = False` with the
cap reached, `process_signals` emits no BUY order at all — every emitted
order is a SELL (from FLAT closes). -/
theorem long_cap_enforced_without_shorts (rm : RiskManager)
    (signals : List SignalEvent) (events : List (String × MarketEvent))
    (feed : BarFeed) (equity : ℚ) (open_positions : List (String × ℚ))
    (c : ℕ) (hs : rm.allow_short = false)
    (hmax : rm.max_open_positions ≤ countLongs open_positions) :
    ((rm.process_signals signals events feed equity open_positions c).1.all
      (fun o => o.side == OrderSide.sell)) = true := by
  induction signals generalizing c with
  | nil => simp [RiskManager.process_signals, processSignalsAux]
  | cons sig rest ih =>
    obtain ⟨ts, sym, sid, dir, strength, sl, tp⟩ := sig
    cases hlk : events.lookup sym with
    | none =>
      simpa [RiskManager.process_signals, processSignalsAux, hlk] using ih c
    | some bar =>
      cases dir with
      | long =>
        by_cases hheld : ((open_positions.lookup sym).getD 0) > 0
        · simpa [RiskManager.process_signals, processSignalsAux, hlk, hheld]
            using ih c
        · simpa [RiskManager.process_signals, processSignalsAux, hlk, hheld,
            hs, hmax] using ih c
      | flat =>
        by_cases hheld : ((open_positions.lookup sym).getD 0) > 0
        · simpa [RiskManager.process_signals, processSignalsAux, hlk, hheld]
            using ih (c + 1)
        · simpa [RiskManager.process_signals, processSignalsAux, hlk, hheld,
            hs] using ih c
      | short =>
        simpa [RiskManager.process_signals, processSignalsAux, hlk, hs]
          using ih c

/-- Claim C6 amended, exercised concretely: `allow_short = False`,
`max_open_positions = 0` already reached (one open long), a LONG signal
is dropped and a FLAT close is the only kind of order that can come
out (here: none, for a LONG-only signal list). -/
theorem long_cap_enforced_without_shorts_witness :
    rmCap0.allow_short = false ∧
    rmCap0.max_open_positions ≤ countLongs [("A", (5 : ℚ))] ∧
    ((rmCap0.process_signals [sigLongA1] [("A", barA1)] feedA 100000
      [("A", (5 : ℚ))] 0).1.all (fun o => o.side == OrderSide.sell)) = true := by
  refine ⟨rfl, by norm_num [rmCap0, countLongs, List.filter_cons], ?_⟩
  exact long_cap_enforced_without_shorts rmCap0 [sigLongA1] [("A", barA1)]
    feedA 100000 [("A", (5 : ℚ))] 0 rfl
    (by norm_num [rmCap0, countLongs, List.filter_cons])

end AlgoTrader

namespace AlgoTrader

theorem processBuy_fields (p : Portfolio) (f : FillEvent) :
    (processBuy p f).equity_curve = p.equity_curve ∧
    (processBuy p f).initial_capital = p.initial_capital := by
  unfold processBuy record_trade
  cases hl : p.positions.lookup f.symbol with
  | none => simp
  | some pos => by_cases hq : pos.quantity > 0 <;> simp [hq]

theorem processSell_fields (p : Portfolio) (f : FillEvent) :
    (processSell p f).2.equity_curve = p.equity_curve ∧
    (processSell p f).2.initial_capital = p.initial_capital := by
  unfold processSell record_trade
  cases hl : p.positions.lookup f.symbol with
  | none => simp
  | some pos =>
    by_cases h : |pos.quantity - f.quantity| < 1 / 1000000000 <;> simp [h]

theorem on_fill_fields (p : Portfolio) (f : FillEvent) :
    (p.on_fill f).equity_curve = p.equity_curve ∧
    (p.on_fill f).initial_capital = p.initial_capital := by
  unfold Portfolio.on_fill
  by_cases h : f.side = OrderSide.buy
  · simp [h, processBuy_fields]
  · simp [h, processSell_fields]

theorem onFill_foldl_fields (fills : List FillEvent) (p : Portfolio) :
    (fills.foldl Portfolio.on_fill p).equity_curve = p.equity_curve ∧
    (fills.foldl Portfolio.on_fill p).initial_capital = p.initial_capital := by
  induction fills generalizing p with
  | nil => exact ⟨rfl, rfl⟩
  | cons f rest ih =>
    simp only [List.foldl_cons]
    exact ⟨((ih _).1).trans (on_fill_fields p f).1,
      ((ih _).2).trans (on_fill_fields p f).2⟩

theorem engineStep_sizing_inv (cfg : EngineConfig) (st : EngineState)
    (b : ℕ × List (String × MarketEvent))
    (h : cfg.initial_capital ::
        st.portfolio.equity_curve.map (fun s => s.equity) =
      st.sizing_equities ++ [st.portfolio.equity]) :
    cfg.initial_capital ::
        (engineStep cfg st b).portfolio.equity_curve.map (fun s => s.equity) =
      (engineStep cfg st b).sizing_equities ++
        [(engineStep cfg st b).portfolio.equity] := by
  simp only [engineStep, Portfolio.mark_to_market, Portfolio.equity,
    (onFill_foldl_fields _ _).1, List.getLast?_concat, List.map_append,
    List.map_cons, List.map_nil]
  rw [← List.cons_append, h]
  simp
  rfl

theorem runBars_sizing_inv (cfg : EngineConfig)
    (bars : List (ℕ × List (String × MarketEvent))) (st : EngineState)
    (h : cfg.initial_capital ::
        st.portfolio.equity_curve.map (fun s => s.equity) =
      st.sizing_equities ++ [st.portfolio.equity]) :
    cfg.initial_capital ::
        (runBars cfg st bars).portfolio.equity_curve.map (fun s => s.equity) =
      (runBars cfg st bars).sizing_equities ++
        [(runBars cfg st bars).portfolio.equity] := by
  induction bars generalizing st with
  | nil => exact h
  | cons b rest ih =>
    simp only [runBars, List.foldl_cons]
    exact ih (engineStep cfg st b) (engineStep_sizing_inv cfg st b h)

/-- Claim C10: `Portfolio.equity` returns the equity of the most recently
appended snapshot (`equity_curve[-1]`), or `initial_capital` when no
snapshot exists (second conjunct); consequently, over a whole engine run,
the per-bar equity values the engine passed to `process_signals` for
sizing (`sizing_equities`) followed by the final equity reconstruct
`initial_capital` followed by every snapshot's equity — i.e. the equity
used for sizing during bar i is exactly the snapshot equity of bar i−1
(initial capital at the first bar), never an equity updated by bar i's
own fills (first conjunct). -/
theorem sizing_equity_lags_one_bar (cfg : EngineConfig) (counter0 : ℕ) :
    (cfg.initial_capital ::
        (run cfg counter0).portfolio.equity_curve.map (fun s => s.equity) =
      (run cfg counter0).sizing_equities ++
        [(run cfg counter0).portfolio.equity]) ∧
    (∀ q : Portfolio,
      (q.equity_curve = [] → q.equity = q.initial_capital) ∧
      (∀ pre snap, q.equity_curve = pre ++ [snap] →
        q.equity = snap.equity)) := by
  constructor
  · apply runBars_sizing_inv
    simp [initState, Portfolio.init, Portfolio.equity]
  · intro q
    constructor
    · intro hq
      simp [Portfolio.equity, hq]
    · intro pre snap hq
      simp [Portfolio.equity, hq, List.getLast?_concat]

/-- Claim C10, exercised concretely: a fresh portfolio (no snapshots)
reports `initial_capital` as its equity. -/
theorem sizing_equity_lags_one_bar_witness :
    (Portfolio.init 100000).equity = (Portfolio.init 100000).initial_capital :=
  ((sizing_equity_lags_one_bar cfgDemo 0).2 (Portfolio.init 100000)).1 rfl

end AlgoTrader

namespace AlgoTrader

theorem lookup_shiftMap (c : ℕ) (m : List (ℕ × String)) (k : ℕ) :
    (shiftMap c m).lookup (k + c) = m.lookup k := by
  induction m with
  | nil => rfl
  | cons p rest ih =>
    obtain ⟨a, v⟩ := p
    simp only [shiftMap, List.map_cons] at ih ⊢
    by_cases h : k = a
    · simp [List.lookup_cons, beq_iff_eq, h]
    · have h2 : ¬ (k + c = a + c) := by omega
      have hb : (k == a) = false := by simpa using h
      have hb2 : (k + c == a + c) = false := by simpa using h2
      simp [List.lookup_cons, hb, hb2, ih]

theorem checkStopAux_shift (events : List (String × MarketEvent))
    (detail : List (String × PosDetail)) (k c : ℕ) :
    checkStopAux events detail (k + c) =
      ((checkStopAux events detail k).1.map (shiftOrder c),
        (checkStopAux events detail k).2 + c) := by
  induction detail generalizing k with
  | nil => rfl
  | cons hd rest ih =>
    obtain ⟨symbol, pos⟩ := hd
    cases hlk : events.lookup symbol with
    | none => simp [checkStopAux, hlk, ih]
    | some bar =>
      by_cases hq0 : pos.qty = 0
      · simp [checkStopAux, hlk, hq0, ih]
      · by_cases hqp : pos.qty > 0
        · by_cases hsl : pyTruthy pos.stop_loss ∧ bar.low ≤ pos.stop_loss.getD 0
          · have : k + c + 1 = (k + 1) + c := by omega
            simp [checkStopAux, hlk, hq0, hqp, hsl, this, ih, shiftOrder]
          · by_cases htp : pyTruthy pos.take_profit ∧
                pos.take_profit.getD 0 ≤ bar.high
            · have : k + c + 1 = (k + 1) + c := by omega
              simp [checkStopAux, hlk, hq0, hqp, hsl, htp, this, ih, shiftOrder]
            · simp [checkStopAux, hlk, hq0, hqp, hsl, htp, ih]
        · simp [checkStopAux, hlk, hq0, hqp, ih]

end AlgoTrader

namespace AlgoTrader

theorem processSignalsAux_shift (rm : RiskManager)
    (events : List (String × MarketEvent)) (feed : BarFeed) (equity : ℚ)
    (open_positions : List (String × ℚ)) (signals : List SignalEvent)
    (k c : ℕ) :
    processSignalsAux rm events feed equity open_positions signals (k + c) =
      ((processSignalsAux rm events feed equity open_positions
          signals k).1.map (shiftOrder c),
        (processSignalsAux rm events feed equity open_positions
          signals k).2 + c) := by
  induction signals generalizing k with
  | nil => rfl
  | cons sig rest ih =>
    obtain ⟨ts, sym, sid, dir, strength, sl, tp⟩ := sig
    cases hlk : events.lookup sym with
    | none => simp [processSignalsAux, hlk, ih]
    | some bar =>
      have hsucc : k + c + 1 = (k + 1) + c := by omega
      cases dir with
      | long =>
        by_cases hheld : ((open_positions.lookup sym).getD 0) > 0
        · simp [processSignalsAux, hlk, hheld, ih]
        · by_cases hcap : rm.allow_short = false ∧
              rm.max_open_positions ≤ countLongs open_positions
          · simp [processSignalsAux, hlk, hheld, hcap, ih]
          · by_cases hqty : rm.sizer equity bar.close
                (compute_atr
                  ((feed.history sym ts (some (rm.atr_period + 5))).getD [])
                  rm.atr_period) strength ≤ 0
            · simp [processSignalsAux, hlk, hheld, hcap, hqty, ih]
            · simp [processSignalsAux, hlk, hheld, hcap, hqty, hsucc, ih,
                shiftOrder]
      | flat =>
        by_cases hheld : ((open_positions.lookup sym).getD 0) > 0
        · simp [processSignalsAux, hlk, hheld, hsucc, ih, shiftOrder]
        · by_cases hneg : ((open_positions.lookup sym).getD 0) < 0 ∧
              rm.allow_short = true
          · simp [processSignalsAux, hlk, hheld, hneg, hsucc, ih, shiftOrder]
          · simp [processSignalsAux, hlk, hheld, hneg, ih]
      | short =>
        by_cases hshort : rm.allow_short = true
        · by_cases hheld : ((open_positions.lookup sym).getD 0) < 0
          · simp [processSignalsAux, hlk, hshort, hheld, ih]
          · by_cases hqty : rm.sizer equity bar.close
                (compute_atr
                  ((feed.history sym ts (some (rm.atr_period + 5))).getD [])
                  rm.atr_period) strength ≤ 0
            · simp [processSignalsAux, hlk, hshort, hheld, hqty, ih]
            · simp [processSignalsAux, hlk, hshort, hheld, hqty, hsucc, ih,
                shiftOrder]
        · simp [processSignalsAux, hlk, hshort, ih]

end AlgoTrader

namespace AlgoTrader

theorem record_trade_shift (c : ℕ) (p : Portfolio) (f : FillEvent) (pnl : ℚ) :
    record_trade (shiftPortfolio c p) (shiftFill c f) pnl =
      shiftPortfolio c (record_trade p f pnl) := by
  simp [record_trade, shiftPortfolio, shiftFill, shiftTrade, List.map_append]

theorem processBuy_shift (c : ℕ) (p : Portfolio) (f : FillEvent) :
    processBuy (shiftPortfolio c p) (shiftFill c f) =
      shiftPortfolio c (processBuy p f) := by
  unfold processBuy
  have hsym : (shiftFill c f).symbol = f.symbol := rfl
  have hpos : (shiftPortfolio c p).positions = p.positions := rfl
  rw [hsym, hpos]
  cases hl : p.positions.lookup f.symbol with
  | none =>
    simp only [hl]
    rw [← record_trade_shift]
    rfl
  | some pos =>
    simp only [hl]
    by_cases hq : pos.quantity > 0
    · simp only [if_pos hq]
      rw [← record_trade_shift]
      rfl
    · simp only [if_neg hq]
      rw [← record_trade_shift]
      rfl

theorem processSell_shift (c : ℕ) (p : Portfolio) (f : FillEvent) :
    processSell (shiftPortfolio c p) (shiftFill c f) =
      ((processSell p f).1, shiftPortfolio c (processSell p f).2) := by
  unfold processSell
  have hsym : (shiftFill c f).symbol = f.symbol := rfl
  have hpos : (shiftPortfolio c p).positions = p.positions := rfl
  rw [hsym, hpos]
  cases hl : p.positions.lookup f.symbol with
  | none =>
    simp only [hl]
    rw [← record_trade_shift]
  | some pos =>
    simp only [hl]
    by_cases hd : |pos.quantity - (shiftFill c f).quantity| < 1 / 1000000000
    · have hd2 : |pos.quantity - f.quantity| < 1 / 1000000000 := hd
      simp only [if_pos hd, if_pos hd2]
      rw [← record_trade_shift]
      rfl
    · have hd2 : ¬ |pos.quantity - f.quantity| < 1 / 1000000000 := hd
      simp only [if_neg hd, if_neg hd2]
      rw [← record_trade_shift]
      rfl

theorem on_fill_shift (c : ℕ) (p : Portfolio) (f : FillEvent) :
    (shiftPortfolio c p).on_fill (shiftFill c f) =
      shiftPortfolio c (p.on_fill f) := by
  unfold Portfolio.on_fill
  have hside : (shiftFill c f).side = f.side := rfl
  rw [hside]
  by_cases h : f.side = OrderSide.buy
  · simp only [if_pos h, processBuy_shift]
    rfl
  · simp only [if_neg h, processSell_shift]
    rfl

theorem onFill_foldl_shift (c : ℕ) (fills : List FillEvent) (p : Portfolio) :
    (fills.map (shiftFill c)).foldl Portfolio.on_fill (shiftPortfolio c p) =
      shiftPortfolio c (fills.foldl Portfolio.on_fill p) := by
  induction fills generalizing p with
  | nil => rfl
  | cons f rest ihf =>
    simp only [List.map_cons, List.foldl_cons, on_fill_shift]
    exact ihf _

theorem mark_to_market_shift (c : ℕ) (p : Portfolio) (ts : ℕ)
    (events : List (String × MarketEvent)) :
    (shiftPortfolio c p).mark_to_market ts events =
      (shiftPortfolio c (p.mark_to_market ts events).1,
        (p.mark_to_market ts events).2) := by
  simp [Portfolio.mark_to_market, shiftPortfolio, List.map_map,
    Function.comp_def, shiftTrade]

end AlgoTrader

namespace AlgoTrader

theorem shiftOrder_symbol (c : ℕ) (o : OrderEvent) :
    (shiftOrder c o).symbol = o.symbol := rfl

theorem shiftOrder_side (c : ℕ) (o : OrderEvent) :
    (shiftOrder c o).side = o.side := rfl

theorem shiftOrder_quantity (c : ℕ) (o : OrderEvent) :
    (shiftOrder c o).quantity = o.quantity := rfl

theorem shiftOrder_timestamp (c : ℕ) (o : OrderEvent) :
    (shiftOrder c o).timestamp = o.timestamp := rfl

theorem shiftOrder_order_id (c : ℕ) (o : OrderEvent) :
    (shiftOrder c o).order_id = o.order_id + c := rfl

theorem shiftOrder_set_status (c : ℕ) (o : OrderEvent) (st : OrderStatus) :
    { shiftOrder c o with status := st } =
      shiftOrder c { o with status := st } := rfl

theorem processBarAux_shift (cfg : BrokerConfig)
    (events : List (String × MarketEvent)) (m : List (ℕ × String))
    (items : List PendingItem) (c : ℕ) :
    processBarAux cfg events (shiftMap c m) (items.map (shiftItem c)) =
      ((processBarAux cfg events m items).1.map (shiftFill c),
        (processBarAux cfg events m items).2.1.map (shiftItem c),
        (processBarAux cfg events m items).2.2.map (shiftOrder c)) := by
  induction items with
  | nil => rfl
  | cons it rest ih =>
    obtain ⟨order, waited⟩ := it
    have htf : ∀ bar, tryFill (shiftOrder c order) bar = tryFill order bar := by
      obtain ⟨ots, osym, otype, oside, oqty, olp, osl, otp, oid, ostat⟩ := order
      intro bar
      rfl
    cases hlk : events.lookup order.symbol with
    | none =>
      simp [processBarAux, shiftItem, shiftOrder_symbol, hlk, ih]
    | some bar =>
      cases hf : tryFill order bar with
      | some fp =>
        simp [processBarAux, shiftItem, shiftOrder_symbol, shiftOrder_side,
          shiftOrder_quantity, shiftOrder_order_id, hlk, htf, hf, ih,
          shiftFill, lookup_shiftMap]
      | none =>
        by_cases hw : cfg.max_bars_pending ≤ waited + 1
        · simp [processBarAux, shiftItem, shiftOrder_symbol,
            shiftOrder_set_status, hlk, htf, hf, hw, ih]
          simp [shiftOrder]
        · simp [processBarAux, shiftItem, shiftOrder_symbol, hlk, htf, hf,
            hw, ih]

end AlgoTrader

namespace AlgoTrader

theorem check_stop_conditions_shift
    (detail : List (String × PosDetail))
    (events : List (String × MarketEvent)) (k c : ℕ) :
    check_stop_conditions detail events (k + c) =
      ((check_stop_conditions detail events k).1.map (shiftOrder c),
        (check_stop_conditions detail events k).2 + c) :=
  checkStopAux_shift events detail k c

theorem process_signals_shift (rm : RiskManager) (signals : List SignalEvent)
    (events : List (String × MarketEvent)) (feed : BarFeed) (equity : ℚ)
    (open_positions : List (String × ℚ)) (k c : ℕ) :
    rm.process_signals signals events feed equity open_positions (k + c) =
      ((rm.process_signals signals events feed equity
          open_positions k).1.map (shiftOrder c),
        (rm.process_signals signals events feed equity
          open_positions k).2 + c) :=
  processSignalsAux_shift rm events feed equity open_positions signals k c

theorem open_positions_detail_shift (c : ℕ) (p : Portfolio) :
    (shiftPortfolio c p).open_positions_detail = p.open_positions_detail := rfl

theorem open_positions_shift (c : ℕ) (p : Portfolio) :
    (shiftPortfolio c p).open_positions = p.open_positions := rfl

theorem equity_shift (c : ℕ) (p : Portfolio) :
    (shiftPortfolio c p).equity = p.equity := rfl

theorem shiftMap_append (c : ℕ) (a b : List (ℕ × String)) :
    shiftMap c (a ++ b) = shiftMap c a ++ shiftMap c b := by
  simp [shiftMap]

theorem riskMap_shift (c : ℕ) (orders : List OrderEvent) :
    (orders.map (shiftOrder c)).map (fun o => (o.order_id, "__risk__")) =
      shiftMap c (orders.map (fun o => (o.order_id, "__risk__"))) := by
  simp [shiftMap, List.map_map, Function.comp_def, shiftOrder_order_id]

theorem attrMap_shift (c : ℕ) (orders : List OrderEvent)
    (all_signals : List SignalEvent) :
    (orders.map (shiftOrder c)).map (fun o =>
        (o.order_id,
          match all_signals.find? (fun s => s.symbol == o.symbol) with
          | some s => s.strategy_id
          | none => "")) =
      shiftMap c (orders.map (fun o =>
        (o.order_id,
          match all_signals.find? (fun s => s.symbol == o.symbol) with
          | some s => s.strategy_id
          | none => ""))) := by
  simp [shiftMap, List.map_map, Function.comp_def, shiftOrder_order_id,
    shiftOrder_symbol]

theorem pendingOf_shift (c : ℕ) (orders : List OrderEvent) :
    (orders.map (shiftOrder c)).map
        (fun o => ({ order := o, bars_waited := 0 } : PendingItem)) =
      (orders.map
        (fun o => ({ order := o, bars_waited := 0 } : PendingItem))).map
        (shiftItem c) := by
  simp [shiftItem, List.map_map, Function.comp_def]

theorem engineStep_shift (cfg : EngineConfig) (st : EngineState)
    (b : ℕ × List (String × MarketEvent)) (c : ℕ) :
    engineStep cfg (shiftState c st) b = shiftState c (engineStep cfg st b) := by
  obtain ⟨ts, events⟩ := b
  simp only [engineStep, shiftState, open_positions_detail_shift,
    open_positions_shift, equity_shift, check_stop_conditions_shift,
    process_signals_shift, riskMap_shift, attrMap_shift, pendingOf_shift,
    ← shiftMap_append, ← List.map_append, processBarAux_shift, process_bar,
    onFill_foldl_shift, mark_to_market_shift, EngineState.mk.injEq]

end AlgoTrader

namespace AlgoTrader

theorem runBars_shift (cfg : EngineConfig)
    (bars : List (ℕ × List (String × MarketEvent))) (st : EngineState)
    (c : ℕ) :
    runBars cfg (shiftState c st) bars = shiftState c (runBars cfg st bars) := by
  induction bars generalizing st with
  | nil => rfl
  | cons b rest ih =>
    simp only [runBars, List.foldl_cons, engineStep_shift] at ih ⊢
    exact ih _

theorem initState_shift (cfg : EngineConfig) (c : ℕ) :
    shiftState c (initState cfg 0) = initState cfg c := by
  simp [shiftState, initState, shiftPortfolio, shiftMap, Portfolio.init]

theorem run_shift (cfg : EngineConfig) (c : ℕ) :
    run cfg c = shiftState c (run cfg 0) := by
  rw [run, run, ← initState_shift, runBars_shift]

theorem stripId_shiftTrade (c : ℕ) (t : TradeRecord) :
    stripId (shiftTrade c t) = stripId t := rfl

/-- Claim C9 (amended): two engine runs on identical inputs produce
identical equity curves and trade logs in every column EXCEPT `order_id`:
a run started at global order counter `c` (e.g. the value a previous run
in the same process left behind) produces the same equity curve, the same
trade log with order ids erased, and order ids equal to the first run's
shifted by `c` — so back-to-back runs differ precisely in the `order_id`
column whenever any order was created (counterexample above), because the
module-level counter is never reset. -/
theorem rerun_identical_except_order_id (cfg : EngineConfig) (c : ℕ) :
    (run cfg c).portfolio.equity_curve = (run cfg 0).portfolio.equity_curve ∧
    (run cfg c).portfolio.trades.map stripId =
      (run cfg 0).portfolio.trades.map stripId ∧
    (run cfg c).portfolio.trades.map (fun t => t.order_id) =
      (run cfg 0).portfolio.trades.map (fun t => t.order_id + c) := by
  rw [run_shift]
  refine ⟨rfl, ?_, ?_⟩
  · simp [shiftState, shiftPortfolio, List.map_map, Function.comp_def,
      stripId_shiftTrade]
  · simp [shiftState, shiftPortfolio, List.map_map, Function.comp_def,
      shiftTrade]

end AlgoTrader
